import Mathlib

/-!
Verification of the sw_em generic_pcie_hal2 shim (CpuemShim, shim.cxx).

The definitions below are a shallow embedding of the shim code:
machine integers become Nat with explicit two-power wraparound where the
code converts, the buffer registry (std::map) becomes an association
list, and the two collaborators that live outside the analyzed sources
are modelled from the spec as oracles passed in as parameters:
the Region Allocator (xclemulation::MemoryManager) as an allocation
function returning an address or the no-space sentinel, and the RPC
macros as functions supplying the acknowledgement or per-chunk result
the peer process sends back.
-/

/-- Modelled from the spec: the no-space sentinel of the Region Allocator
(xclemulation::MemoryManager::mNull, declared outside the analyzed
sources): a sentinel value distinguishable from any valid address, here
the all-ones 64-bit word, which is also what the expression return -1
yields in a function whose return type is uint64_t. -/
def mNull : Nat := 2 ^ 64 - 1

/-- Modelled from the spec: the invalid buffer-object handle sentinel
(CpuemShim::mNullBO, declared outside the analyzed sources), the
all-ones 32-bit word. -/
def mNullBO : Nat := 2 ^ 32 - 1

/-- Modelled from the spec: the minimum alignment unit to which zero-sized
requests are normalized (the DDR BUFFER ALIGNMENT macro, defined outside
the analyzed sources); the spec fixes it at the 4 KiB page. -/
def DDR_BUFFER_ALIGNMENT : Nat := 4096

/-- Modelled from the spec: the bank selector is carried in the low bits of
the allocation flags (xclemulation bank index extraction, declared outside
the analyzed sources). -/
def xocl_bo_ddr_idx (flags : Nat) : Nat := flags % 2 ^ 24

/-- A buffer-object record (xclemulation::drm_xocl_bo) as xoclCreateBo
fills it: flags, device base address, size, backing file name, the
caller-owned host pointer, the lazily mapped pointer, and the import
file descriptor. Pointers are modelled as optional addresses. -/
structure drm_xocl_bo where
  flags : Nat
  base : Nat
  size : Nat
  filename : String
  userptr : Option Nat
  buf : Option Nat
  fd : Int
deriving Repr, DecidableEq

/-- One outstanding streaming request record, an element of
CpuemShim::mReqList: the request sequence number, the caller context
pointer (modelled as a number) and the buffer-address-to-length map. -/
structure StreamReq where
  counter : Nat
  privData : Nat
  vaLen : List (Nat × Nat)
deriving Repr, DecidableEq

/-- One entry written to the completion output array of
xclPollCompletion: the caller context and the processed byte count. -/
structure Completion where
  privData : Nat
  nbytes : Nat
deriving Repr, DecidableEq

/-- The session state of one CpuemShim device instance: the channel
presence (sock), the binary-load counter, the buffer registry
(mXoclObjMap together with the handle counter mBufferCount, a static
member in the source), the outstanding streaming requests, the
configured chunk size (message size, default 0x800000, overridable by
the SW EMU PACKET SIZE environment setting), the bank count the device
info reports (mDDRBankCount), the number of per-bank allocators
(mDDRMemoryManager length), and the dont-run debug flag of the
environment configuration. -/
structure CpuemShim where
  sock : Bool
  binaryCounter : Nat
  mBufferCount : Nat
  mXoclObjMap : List (Nat × drm_xocl_bo)
  mReqList : List StreamReq
  mReqCounter : Nat
  message_size : Nat
  mDDRBankCount : Nat
  numBanks : Nat
  simDontRun : Bool
deriving Repr, DecidableEq

/-- Lookup in the buffer registry (std::map::find keyed by handle). -/
def lookupBo : List (Nat × drm_xocl_bo) → Nat → Option drm_xocl_bo
  | [], _ => none
  | (k, v) :: rest, h => if k = h then some v else lookupBo rest h

/-- Insert or overwrite in the buffer registry (std::map subscript
assignment). -/
def insertBo : List (Nat × drm_xocl_bo) → Nat → drm_xocl_bo → List (Nat × drm_xocl_bo)
  | [], k, v => [(k, v)]
  | (k0, v0) :: rest, k, v =>
    if k0 = k then (k0, v) :: rest else (k0, v0) :: insertBo rest k v

/-- Remove one entry from the buffer registry (std::map::erase at the
iterator the find returned). -/
def eraseBo : List (Nat × drm_xocl_bo) → Nat → List (Nat × drm_xocl_bo)
  | [], _ => []
  | (k0, v0) :: rest, h => if k0 = h then rest else (k0, v0) :: eraseBo rest h

/-- The observable side effects of one launchDeviceProcess call: whether
the numbered binary directory was created, whether a child process was
forked, and whether a new channel (unix socket) was opened. -/
structure LaunchEffects where
  dirCreated : Bool
  spawned : Bool
  channelCreated : Bool
deriving Repr, DecidableEq

/-- CpuemShim::launchDeviceProcess (shim.cxx lines 429 to 582): it first
creates the device directory and the next numbered binary directory and
advances binaryCounter, and only then checks the channel: when sock is
already present it returns; otherwise it installs the signal handlers,
forks the simulator child unless the dont-run debug flag is set, and
opens the channel (sock is assigned a new unix socket in either case).
The process-internal argument plumbing of the child is outside the
modelled core. -/
def launchDeviceProcess (st : CpuemShim) : CpuemShim × LaunchEffects :=
  let st1 : CpuemShim := { st with binaryCounter := st.binaryCounter + 1 }
  if st.sock then
    (st1, { dirCreated := true, spawned := false, channelCreated := false })
  else
    ({ st1 with sock := true },
     { dirCreated := true, spawned := !st.simDontRun, channelCreated := true })

/-- CpuemShim::launchTempProcess (shim.cxx lines 1072 to 1083): launch
the device process with the debuggable flag clear, then forward an
empty bitstream-load request over the channel (the request itself has
no effect on the session state modelled here). -/
def launchTempProcess (st : CpuemShim) : CpuemShim × LaunchEffects :=
  launchDeviceProcess st

/-- The memory domain argument of xclAllocDeviceBuffer2; only the device
RAM domain is accepted. -/
inductive xclMemoryDomains where
  | deviceRam
  | other
deriving Repr, DecidableEq

/-- CpuemShim::xclAllocDeviceBuffer2 (shim.cxx lines 1122 to 1169).
Arguments: the allocation oracle standing for the per-bank Region
Allocators (bank index and size to returned address, mNull on
failure), the acknowledgement the RPC macro reads back from the peer,
the session state, the requested size, the domain and the bank flags.
Returns the assigned address (mNull on failure, 0 when the peer did
not acknowledge), the possibly normalized size (the C++ size argument
is a reference the caller keeps using), and the resulting state.
Source order: launch the peer process when the channel is absent,
reject a domain other than device RAM, normalize a zero size to
DDR BUFFER ALIGNMENT, reject a bank index at or beyond the allocator
count, delegate to the allocator of the selected bank, surface the
no-space sentinel, then forward the allocation to the peer and check
the acknowledgement. -/
def xclAllocDeviceBuffer2 (alloc : Nat → Nat → Nat) (rpcAck : Bool) (st : CpuemShim)
    (size0 : Nat) (domain : xclMemoryDomains) (flags : Nat) : Nat × Nat × CpuemShim :=
  let st1 := if st.sock then st else (launchTempProcess st).1
  if domain ≠ xclMemoryDomains.deviceRam then (mNull, size0, st1)
  else
    let size := if size0 = 0 then DDR_BUFFER_ALIGNMENT else size0
    if st1.numBanks ≤ flags then (mNull, size, st1)
    else
      let result := alloc flags size
      if result = mNull then (mNull, size, st1)
      else if rpcAck = false then (0, size, st1)
      else (result, size, st1)

/-- The argument record of xoclCreateBo (xclemulation::xocl create bo):
requested size, the handle slot the call fills, and the allocation
flags. -/
structure xocl_create_bo where
  size : Nat
  handle : Nat
  flags : Nat
deriving Repr, DecidableEq

/-- CpuemShim::xoclCreateBo (shim.cxx lines 1579 to 1615). A zero size
is rejected up front with return -1 (the all-ones 64-bit word, since
the return type is uint64_t). The bank index is taken from the flags;
an index at or beyond the reported bank count falls back to bank 0.
The address comes from xclAllocDeviceBuffer2; on the no-space sentinel
the record is not registered and the sentinel is returned; otherwise
the record is stored under the current handle counter, the counter is
advanced, the handle is written into the argument record and 0 is
returned. -/
def xoclCreateBo (alloc : Nat → Nat → Nat) (rpcAck : Bool) (st : CpuemShim)
    (info : xocl_create_bo) : Nat × CpuemShim × xocl_create_bo :=
  let size := info.size
  let ddr := xocl_bo_ddr_idx info.flags
  if size = 0 then (mNull, st, info)
  else
    let ddr := if st.mDDRBankCount ≤ ddr then 0 else ddr
    let r := xclAllocDeviceBuffer2 alloc rpcAck st size xclMemoryDomains.deviceRam ddr
    let base := r.1
    let size1 := r.2.1
    let st1 := r.2.2
    let xobj : drm_xocl_bo :=
      { flags := info.flags, base := base, size := size1, filename := "",
        userptr := none, buf := none, fd := -1 }
    if base = mNull then (mNull, st1, info)
    else
      (0,
       { st1 with
         mXoclObjMap := insertBo st1.mXoclObjMap st1.mBufferCount xobj,
         mBufferCount := st1.mBufferCount + 1 },
       { info with handle := st1.mBufferCount })

/-- CpuemShim::xclAllocBO (shim.cxx lines 1617 to 1628): wrap the
arguments, call xoclCreateBo, and return the filled handle on success
or the mNullBO sentinel on any nonzero result. -/
def xclAllocBO (alloc : Nat → Nat → Nat) (rpcAck : Bool) (st : CpuemShim)
    (size : Nat) (flags : Nat) : Nat × CpuemShim :=
  let info : xocl_create_bo := { size := size, handle := mNullBO, flags := flags }
  let r := xoclCreateBo alloc rpcAck st info
  (if r.1 ≠ 0 then mNullBO else r.2.2.handle, r.2.1)

/-- CpuemShim::xclFreeBO (shim.cxx lines 1871 to 1891). The function
returns void, modelled as the Unit component of the result. An unknown
handle returns at once; a registered handle has its base address handed
to xclFreeDeviceBuffer (the addresses released to the per-bank
allocators are the third component) and its record erased. -/
def xclFreeBO (st : CpuemShim) (h : Nat) : Unit × CpuemShim × List Nat :=
  match lookupBo st.mXoclObjMap h with
  | none => ((), st, [])
  | some bo => ((), { st with mXoclObjMap := eraseBo st.mXoclObjMap h }, [bo.base])

/-- The ideal chunk decomposition of a transfer: starting from the
processed byte count, while bytes remain, the next chunk length is the
remaining byte count when that is below the message size and the
message size otherwise; the list collects the (processed offset,
chunk length) pairs in order. This is a proof-side reference list,
not the source loop itself: the loop of the copy functions is
chunkLoopW below, whose 32-bit accumulator makes it produce exactly
this decomposition when the size is below 2 to the 32 and the message
size is positive, and never finish otherwise. -/
def chunkLoop (m : Nat) (processed size : Nat) : List (Nat × Nat) :=
  if h : 0 < m ∧ processed < size then
    let c := if size - processed < m then size - processed else m
    (processed, c) :: chunkLoop m (processed + c) size
  else []
termination_by size - processed
decreasing_by
  split <;> omega

/-- The chunking loop shared by xclCopyBufferHost2Device and
xclCopyBufferDevice2Host (shim.cxx lines 1274 to 1291 and 1311 to
1330), with its integer widths: processed_bytes and the message size
are 32-bit unsigned values while size is a 64-bit size_t, so the
increment of processed_bytes wraps at 2 to the 32 and the loop can
never exit once size is at least 2 to the 32 (the accumulator never
reaches it); it also never exits when the message size is 0. The loop
is therefore modelled with fuel counting the iterations: none means
the loop was still running when the fuel ran out, and a result that
is none for every fuel value is a loop that never returns. The chunk
length assignment itself never truncates: in the branch taking the
remaining bytes those are below the message size and hence below the
32-bit bound. -/
def chunkLoopW (m : Nat) : Nat → Nat → Nat → Option (List (Nat × Nat))
  | 0, processed, size => if processed < size then none else some []
  | fuel + 1, processed, size =>
    if processed < size then
      let c := if size - processed < m then size - processed else m
      Option.map (fun rest => (processed, c) :: rest)
        (chunkLoopW m fuel ((processed + c) % 2 ^ 32) size)
    else some []

/-- One forwarded copy chunk: the device-side address of the chunk, its
length, and the per-chunk result the peer sends back (modelled from
the spec: the RPC macros, defined outside the analyzed sources, read a
response for every forwarded message; the copy loops in the source do
not consume it). -/
structure ChunkMsg where
  addr : Nat
  len : Nat
  peerBytes : Nat
deriving Repr, DecidableEq

/-- CpuemShim::xclCopyBufferHost2Device (shim.cxx lines 1258 to 1293):
launch the peer process when the channel is absent, apply the seek
offset to source and destination, forward the transfer as sequential
chunks via the chunking loop, and return the requested size. The fuel
bounds the loop iterations as in chunkLoopW: a none result is a call
that has not returned, which is what the source does for a size of
2 to the 32 or more, or a message size of 0. The peer oracle maps a
chunk destination address and length to the bytes the peer reports;
the returned value does not depend on it. -/
def xclCopyBufferHost2Device (peer : Nat → Nat → Nat) (st : CpuemShim)
    (dest : Nat) (size : Nat) (seek : Nat) (fuel : Nat) :
    Option (Nat × CpuemShim × List ChunkMsg) :=
  let st1 := if st.sock then st else (launchTempProcess st).1
  let dest1 := dest + seek
  Option.map (fun chunks =>
      (size, st1, chunks.map
        (fun pc => { addr := dest1 + pc.1, len := pc.2,
                     peerBytes := peer (dest1 + pc.1) pc.2 })))
    (chunkLoopW st1.message_size fuel 0 size)

/-- CpuemShim::xclCopyBufferDevice2Host (shim.cxx lines 1296 to 1333):
the mirror transfer, with the skip offset applied to the device source
address and the host destination; chunks are forwarded sequentially by
the same loop (same integer widths, same fuel reading) and the
requested size is returned. -/
def xclCopyBufferDevice2Host (peer : Nat → Nat → Nat) (st : CpuemShim)
    (src : Nat) (size : Nat) (skip : Nat) (fuel : Nat) :
    Option (Nat × CpuemShim × List ChunkMsg) :=
  let st1 := if st.sock then st else (launchTempProcess st).1
  let src1 := src + skip
  Option.map (fun chunks =>
      (size, st1, chunks.map
        (fun pc => { addr := src1 + pc.1, len := pc.2,
                     peerBytes := peer (src1 + pc.1) pc.2 })))
    (chunkLoopW st1.message_size fuel 0 size)

/-- The address space argument of xclWrite and xclRead; only the kernel
control space is accepted. -/
inductive xclAddressSpace where
  | kernelCtrl
  | other
deriving Repr, DecidableEq

/-- The value return -1 yields in a function whose return type is
size_t: the all-ones 64-bit word. -/
def size_t_neg1 : Nat := 2 ^ 64 - 1

/-- CpuemShim::xclWrite (shim.cxx lines 1196 to 1222): when the channel
is absent the call returns the requested size at once, forwarding
nothing and leaving the state alone; otherwise an address space other
than kernel control or a size that is not a multiple of 4 returns
the size_t conversion of -1, and a valid request is forwarded and the
size returned. The Bool component records whether a message was
forwarded to the peer. -/
def xclWrite (st : CpuemShim) (space : xclAddressSpace) (offset : Nat)
    (size : Nat) : Nat × Bool × CpuemShim :=
  if st.sock = false then (size, false, st)
  else if space ≠ xclAddressSpace.kernelCtrl then (size_t_neg1, false, st)
  else if size % 4 ≠ 0 then (size_t_neg1, false, st)
  else (size, true, st)

/-- CpuemShim::xclRead (shim.cxx lines 1224 to 1254): when the channel
is absent the call returns the requested size at once, forwarding
nothing; otherwise an address space other than kernel control or a
size other than 4 returns the size_t conversion of -1, and a valid
request is forwarded and the size returned. -/
def xclRead (st : CpuemShim) (space : xclAddressSpace) (offset : Nat)
    (size : Nat) : Nat × Bool × CpuemShim :=
  if st.sock = false then (size, false, st)
  else if space ≠ xclAddressSpace.kernelCtrl then (size_t_neg1, false, st)
  else if size ≠ 4 then (size_t_neg1, false, st)
  else (size, true, st)

/-- The binary container (xclbin) as the load path reads it: the raw
header bytes the magic comparisons look at, and the presence of the
sections the load path extracts. Section payloads are opaque here, as
the spec scopes them. -/
structure XclBin where
  bytes : List Nat
  hasEmbeddedMetadata : Bool
  hasAieMetadata : Bool
  hasDebugData : Bool
deriving Repr, DecidableEq

/-- The 8 bytes the legacy-header comparison memcmp(p, "xclbin0", 8)
reads: the seven characters and the terminating zero byte. -/
def xclbin0Magic : List Nat := [120, 99, 108, 98, 105, 110, 48, 0]

/-- The 7 bytes the versioned-header comparison memcmp(p, "xclbin2", 7)
reads. -/
def xclbin2Magic : List Nat := [120, 99, 108, 98, 105, 110, 50]

/-- The legacy-container test of the load path. -/
def isLegacyMagic (bytes : List Nat) : Bool := bytes.take 8 == xclbin0Magic

/-- The versioned-container test of the load path. -/
def isXclbin2Magic (bytes : List Nat) : Bool := bytes.take 7 == xclbin2Magic

/-- CpuemShim::dumpXML (shim.cxx lines 315 to 417): a null header
returns 0 without dumping; a legacy magic or an unrecognized magic
returns -1 before touching the filesystem; a versioned container
without embedded metadata returns -1 likewise; otherwise the device
and binary directories are created and the metadata written to a
fresh file (the fsOk parameter stands for the fopen of the
destination succeeding). The Bool component records whether
directories were created. -/
def dumpXML (fsOk : Bool) (hdr : Option XclBin) : Int × Bool :=
  match hdr with
  | none => (0, false)
  | some h =>
    if isLegacyMagic h.bytes then (-1, false)
    else if isXclbin2Magic h.bytes then
      if h.hasEmbeddedMetadata = false then (-1, false)
      else if fsOk = false then (-1, true)
      else (0, true)
    else (-1, false)

/-- CpuemShim::isAieEnabled (shim.cxx lines 799 to 834): true exactly
for a versioned container carrying an AIE metadata section. -/
def isAieEnabled (hdr : Option XclBin) : Bool :=
  match hdr with
  | none => false
  | some h =>
    if isLegacyMagic h.bytes then false
    else if isXclbin2Magic h.bytes then h.hasAieMetadata
    else false

/-- The observable side effects of one xclLoadXclBin call: the launch
effects when launchDeviceProcess ran, whether dumpXML created
directories, and whether the bitstream-load request reached the
channel. -/
structure LoadEffects where
  launch : Option LaunchEffects
  dumpDirs : Bool
  bitstreamSent : Bool
deriving Repr, DecidableEq

/-- CpuemShim::xclLoadXclBin (shim.cxx lines 584 to 797). The AIE flow
(xclLoadXclBinNewFlow) is dispatched first and is outside the modelled
core, so the result is none there; no claim concerns it. Otherwise
dumpXML runs first and a nonzero result is returned before any
subprocess interaction; only then is the device process launched, the
header checked again (a legacy or unrecognized magic returns -1), the
shared library written out (fsOk stands for the temporary file
creation succeeding), the instance configuration flushed, and the
bitstream-load request sent, whose acknowledgement decides the final
0 or -1. The section extraction between those steps only fills local
buffers and is summarized. -/
def xclLoadXclBin (rpcAck : Bool) (fsOk : Bool) (st : CpuemShim)
    (hdr : Option XclBin) : Option (Int × CpuemShim × LoadEffects) :=
  if isAieEnabled hdr then none
  else
    let d := dumpXML fsOk hdr
    if d.1 ≠ 0 then some (d.1, st, { launch := none, dumpDirs := d.2, bitstreamSent := false })
    else
      let l := launchDeviceProcess st
      let st1 := l.1
      match hdr with
      | none => some (0, st1, { launch := some l.2, dumpDirs := d.2, bitstreamSent := false })
      | some h =>
        if isLegacyMagic h.bytes then
          some (-1, st1, { launch := some l.2, dumpDirs := d.2, bitstreamSent := false })
        else if isXclbin2Magic h.bytes then
          if fsOk = false then
            some (-1, st1, { launch := some l.2, dumpDirs := d.2, bitstreamSent := false })
          else if rpcAck then
            some (0, st1, { launch := some l.2, dumpDirs := d.2, bitstreamSent := true })
          else
            some (-1, st1, { launch := some l.2, dumpDirs := d.2, bitstreamSent := true })
        else
          some (-1, st1, { launch := some l.2, dumpDirs := d.2, bitstreamSent := false })

/-- The inner scan of xclPollCompletion (shim.cxx lines 2116 to 2135):
walk the outstanding-request list in order, query the peer for the
processed byte count of each record (the peer oracle stands for the
poll RPC, defined outside the analyzed sources), move each record with
a positive count into the completion output, and keep the rest. -/
def pollScan (peer : Nat → Nat) : List StreamReq → List StreamReq × List Completion
  | [] => ([], [])
  | r :: rest =>
    let n := peer r.counter
    let rc := pollScan peer rest
    if 0 < n then (rc.1, { privData := r.privData, nbytes := n } :: rc.2)
    else (r :: rc.1, rc.2)

/-- The outer loop of xclPollCompletion (shim.cxx lines 2114 to 2136):
rescan the outstanding requests until at least the minimum completion
count has accumulated. The loop has no other exit, so it is modelled
with fuel counting the scan passes: none means the loop was still
running when the fuel ran out, and a result independent of all fuel
values is a loop that never returns. -/
def pollLoop (peer : Nat → Nat) (minCompl : Nat) :
    Nat → List StreamReq → List Completion → Option (List StreamReq × List Completion)
  | 0, _, _ => none
  | fuel + 1, reqs, acc =>
    if acc.length < minCompl then
      let rc := pollScan peer reqs
      pollLoop peer minCompl fuel rc.1 (acc ++ rc.2)
    else some (reqs, acc)

/-- CpuemShim::xclPollCompletion (shim.cxx lines 2097 to 2139): the
timeout-handling block of the source is commented out, and the
max-completion argument is read only by the trace log, so the loop
depends on neither; the call returns the number of completions
written, the state with the completed records removed, and the
completion list. -/
def xclPollCompletion (peer : Nat → Nat) (fuel : Nat) (st : CpuemShim)
    (min_compl max_compl timeout : Nat) : Option (Nat × CpuemShim × List Completion) :=
  match pollLoop peer min_compl fuel st.mReqList [] with
  | none => none
  | some rc => some (rc.2.length, { st with mReqList := rc.1 }, rc.2)

/-- The byte total of a list of (offset, length) chunks. -/
def sumLens : List (Nat × Nat) → Nat
  | [] => 0
  | (_, len) :: rest => len + sumLens rest

/-- The byte total of the per-chunk results the peer reported for a
forwarded chunk list. -/
def sumPeerBytes : List ChunkMsg → Nat
  | [] => 0
  | c :: rest => c.peerBytes + sumPeerBytes rest

/-- The (address, length) pairs of a forwarded chunk list, in forwarding
order. -/
def msgPairs (l : List ChunkMsg) : List (Nat × Nat) :=
  l.map (fun c => (c.addr, c.len))

/-- Chunks start at the given address and are contiguous: each chunk
begins exactly where the previous one ended and has a positive length,
so offsets are strictly increasing with no overlap and no gap. -/
def contiguousFrom : Nat → List (Nat × Nat) → Bool
  | _, [] => true
  | o, (off, len) :: rest => (off == o) && (len != 0) && contiguousFrom (o + len) rest

/-- Every chunk has length exactly m except the final one, which is
positive and at most m. -/
def chunkSizesOk : Nat → List (Nat × Nat) → Bool
  | _, [] => true
  | m, (_, len) :: rest =>
    (if rest.isEmpty then (len != 0) && Nat.ble len m else len == m) && chunkSizesOk m rest

/-- A concrete session state used by the witnesses and counterexamples:
channel open, one bank, empty registry, default message size. -/
def baseState : CpuemShim :=
  { sock := true, binaryCounter := 0, mBufferCount := 0, mXoclObjMap := [],
    mReqList := [], mReqCounter := 0, message_size := 8388608,
    mDDRBankCount := 1, numBanks := 1, simDontRun := false }

/-- A concrete registered buffer object. -/
def demoBo : drm_xocl_bo :=
  { flags := 0, base := 4096, size := 16, filename := "", userptr := none,
    buf := none, fd := -1 }

/-- A session state whose registry holds one object under handle 0. -/
def stRegistry : CpuemShim :=
  { baseState with mXoclObjMap := [(0, demoBo)], mBufferCount := 1 }

/-- A session state with the channel absent. -/
def stNoSock : CpuemShim := { baseState with sock := false }

/-- A session state with a message size of 2 bytes, so that a 3 byte
transfer splits into two chunks. -/
def stChunk : CpuemShim := { baseState with message_size := 2 }

/-- A peer for the chunk counterexample: it accepts the chunk at
address 0 in full and fails every other chunk. -/
def demoFailSecond : Nat → Nat → Nat := fun a l => if a = 0 then l else 0

/-- Outstanding streaming request records for the poll scenarios. -/
def req1 : StreamReq := { counter := 1, privData := 11, vaLen := [(100, 4)] }

def req2 : StreamReq := { counter := 2, privData := 12, vaLen := [(200, 4)] }

def req3 : StreamReq := { counter := 3, privData := 13, vaLen := [(300, 4)] }

def req4 : StreamReq := { counter := 4, privData := 14, vaLen := [(400, 4)] }

def req5 : StreamReq := { counter := 5, privData := 15, vaLen := [(500, 4)] }

/-- Three outstanding requests, none of which will ever complete. -/
def stPoll3 : CpuemShim := { baseState with mReqList := [req1, req2, req3], mReqCounter := 3 }

/-- Two outstanding requests, both already complete. -/
def stPoll2 : CpuemShim := { baseState with mReqList := [req1, req2], mReqCounter := 2 }

/-- Five outstanding requests of which the first two are complete. -/
def stPoll5 : CpuemShim :=
  { baseState with mReqList := [req1, req2, req3, req4, req5], mReqCounter := 5 }

/-- A container header whose magic bytes match neither the versioned nor
the legacy comparison. -/
def demoBadBin : XclBin :=
  { bytes := [1, 2, 3, 4, 5, 6, 7, 8], hasEmbeddedMetadata := true,
    hasAieMetadata := true, hasDebugData := true }

/-- A container header carrying the legacy magic. -/
def demoLegacyBin : XclBin :=
  { bytes := [120, 99, 108, 98, 105, 110, 48, 0, 42], hasEmbeddedMetadata := true,
    hasAieMetadata := true, hasDebugData := true }

theorem sumLens_chunkLoop (m : Nat) : ∀ n p s, s - p ≤ n → 0 < m →
    sumLens (chunkLoop m p s) = s - p := by
  intro n
  induction n with
  | zero =>
    intro p s hle hm
    rw [chunkLoop, dif_neg (by omega)]
    simp [sumLens]
    omega
  | succ n ih =>
    intro p s hle hm
    rw [chunkLoop]
    by_cases h : 0 < m ∧ p < s
    · rw [dif_pos h]
      set c := if s - p < m then s - p else m with hc
      have hc1 : 0 < c := by rw [hc]; split <;> omega
      have hc2 : c ≤ s - p := by rw [hc]; split <;> omega
      rw [sumLens, ih (p + c) s (by omega) hm]
      omega
    · rw [dif_neg h]
      simp [sumLens]
      omega

theorem contiguousFrom_chunkLoop (m b : Nat) : ∀ n p s, s - p ≤ n →
    contiguousFrom (b + p) ((chunkLoop m p s).map (fun pc => (b + pc.1, pc.2))) = true := by
  intro n
  induction n with
  | zero =>
    intro p s hle
    rw [chunkLoop, dif_neg (by omega)]
    rfl
  | succ n ih =>
    intro p s hle
    rw [chunkLoop]
    by_cases h : 0 < m ∧ p < s
    · rw [dif_pos h]
      set c := if s - p < m then s - p else m with hc
      have hc1 : 0 < c := by rw [hc]; split <;> omega
      have hc2 : c ≤ s - p := by rw [hc]; split <;> omega
      simp only [List.map_cons, contiguousFrom]
      have hb : b + p + c = b + (p + c) := by omega
      rw [hb, ih (p + c) s (by omega)]
      simp [Nat.pos_iff_ne_zero.mp hc1]
    · rw [dif_neg h]
      rfl

theorem chunkSizesOk_chunkLoop (m : Nat) : ∀ n p s, s - p ≤ n →
    chunkSizesOk m (chunkLoop m p s) = true := by
  intro n
  induction n with
  | zero =>
    intro p s hle
    rw [chunkLoop, dif_neg (by omega)]
    rw [chunkSizesOk]
  | succ n ih =>
    intro p s hle
    rw [chunkLoop]
    by_cases h : 0 < m ∧ p < s
    · rw [dif_pos h]
      rcases Nat.lt_or_ge (s - p) m with hsp | hsp
      · simp only [if_pos hsp]
        have hrest : chunkLoop m (p + (s - p)) s = [] := by
          rw [chunkLoop, dif_neg (by omega)]
        rw [hrest, chunkSizesOk, chunkSizesOk]
        simp [Nat.ble_eq, hsp.le]
        omega
      · simp only [if_neg (Nat.not_lt.mpr hsp)]
        rw [chunkSizesOk, ih (p + m) s (by omega)]
        by_cases h2 : p + m < s
        · have hrest : chunkLoop m (p + m) s ≠ [] := by
            rw [chunkLoop, dif_pos ⟨h.1, h2⟩]
            simp
          simp [List.isEmpty_iff, hrest]
        · have hrest : chunkLoop m (p + m) s = [] := by
            rw [chunkLoop, dif_neg (by omega)]
          simp [List.isEmpty_iff, hrest, Nat.ble_eq]
          omega
    · rw [dif_neg h]
      rw [chunkSizesOk]

theorem sumLens_map_shift (b : Nat) : ∀ l : List (Nat × Nat),
    sumLens (l.map (fun pc => (b + pc.1, pc.2))) = sumLens l := by
  intro l
  induction l with
  | nil => rfl
  | cons hd tl ih => rw [List.map_cons, sumLens, ih, sumLens]

theorem chunkSizesOk_map_shift (m b : Nat) : ∀ l : List (Nat × Nat),
    chunkSizesOk m (l.map (fun pc => (b + pc.1, pc.2))) = chunkSizesOk m l := by
  intro l
  induction l with
  | nil => rfl
  | cons hd tl ih =>
    rw [List.map_cons, chunkSizesOk, ih, chunkSizesOk]
    cases tl <;> simp

theorem chunkLoopW_eq_some (m : Nat) (hm : 0 < m) :
    ∀ fuel p size, size < 2 ^ 32 → size - p ≤ fuel →
      chunkLoopW m fuel p size = some (chunkLoop m p size) := by
  intro fuel
  induction fuel with
  | zero =>
    intro p size hsz hle
    rw [chunkLoopW, if_neg (by omega), chunkLoop, dif_neg (by omega)]
  | succ n ih =>
    intro p size hsz hle
    rw [chunkLoopW]
    by_cases h : p < size
    · rw [if_pos h, chunkLoop, dif_pos ⟨hm, h⟩]
      simp only []
      set c := if size - p < m then size - p else m with hc
      have hc1 : 0 < c := by rw [hc]; split <;> omega
      have hc2 : c ≤ size - p := by rw [hc]; split <;> omega
      have hmod : (p + c) % 2 ^ 32 = p + c := Nat.mod_eq_of_lt (by omega)
      rw [hmod, ih (p + c) size hsz (by omega)]
      rfl
    · rw [if_neg h, chunkLoop, dif_neg (by omega)]

theorem chunkLoopW_big (m : Nat) :
    ∀ fuel p size, 2 ^ 32 ≤ size → p < 2 ^ 32 →
      chunkLoopW m fuel p size = none := by
  intro fuel
  induction fuel with
  | zero =>
    intro p size hsz hp
    rw [chunkLoopW, if_pos (by omega)]
  | succ n ih =>
    intro p size hsz hp
    rw [chunkLoopW, if_pos (by omega)]
    simp only []
    rw [ih _ size hsz (Nat.mod_lt _ (by norm_num))]
    rfl

theorem chunkLoopW_zero_message : ∀ fuel p size, p < size → p < 2 ^ 32 →
    chunkLoopW 0 fuel p size = none := by
  intro fuel
  induction fuel with
  | zero =>
    intro p size h hp
    rw [chunkLoopW, if_pos h]
  | succ n ih =>
    intro p size h hp
    rw [chunkLoopW, if_pos h]
    simp only [Nat.not_lt_zero, if_false, Nat.add_zero]
    rw [Nat.mod_eq_of_lt hp, ih p size h hp]
    rfl

theorem pollScan_never_complete (reqs : List StreamReq) :
    pollScan (fun _ => 0) reqs = (reqs, []) := by
  induction reqs with
  | nil => rfl
  | cons r rest ih => simp [pollScan, ih]

theorem pollLoop_never_complete (minCompl : Nat) (hm : 0 < minCompl) :
    ∀ fuel reqs, pollLoop (fun _ => 0) minCompl fuel reqs [] = none := by
  intro fuel
  induction fuel with
  | zero => intro reqs; rfl
  | succ n ih =>
    intro reqs
    rw [pollLoop]
    simp only [List.length_nil, hm, if_pos, pollScan_never_complete, List.nil_append]
    exact ih reqs

theorem lookupBo_insertBo_self (k : Nat) (v : drm_xocl_bo) :
    ∀ m, lookupBo (insertBo m k v) k = some v := by
  intro m
  induction m with
  | nil => simp [insertBo, lookupBo]
  | cons hd tl ih =>
    obtain ⟨k0, v0⟩ := hd
    by_cases hk : k0 = k
    · simp [insertBo, hk, lookupBo]
    · simp [insertBo, hk, lookupBo, ih]

/-- Claim C4: a binary container whose header bytes are not the
versioned xclbin2 magic (the unrecognized and the legacy cases alike)
makes xclLoadXclBin return -1 before any subprocess interaction: the
device process launch never runs, so nothing is forked and no channel
is created, no directory is made, no bitstream request is sent, and
the session state is returned unchanged. -/
theorem xclLoadXclBin_bad_magic (rpcAck fsOk : Bool) (st : CpuemShim) (h : XclBin)
    (hm : isXclbin2Magic h.bytes = false) :
    xclLoadXclBin rpcAck fsOk st (some h) =
      some (-1, st, { launch := none, dumpDirs := false, bitstreamSent := false }) := by
  by_cases hl : isLegacyMagic h.bytes
  · simp [xclLoadXclBin, isAieEnabled, dumpXML, hl, hm]
  · simp [xclLoadXclBin, isAieEnabled, dumpXML, hl, hm]

/-- Claim C4 witness: the legacy magic is rejected with -1, with no
launch, no directory and no state change. -/
theorem xclLoadXclBin_bad_magic_witness :
    xclLoadXclBin true true baseState (some demoLegacyBin) =
      some (-1, baseState, { launch := none, dumpDirs := false, bitstreamSent := false }) :=
  xclLoadXclBin_bad_magic true true baseState demoLegacyBin (by decide)

/-- Claim C7 amended: freeing a handle that is not in the registry is a
no-op that does not crash: the state is returned exactly as it was, so
every registered handle keeps its record and later operations on valid
handles behave as before, and no address is released to the
allocators; the function returns void, so there is no error
indication in the return value. -/
theorem xclFreeBO_unknown (st : CpuemShim) (h : Nat)
    (hh : lookupBo st.mXoclObjMap h = none) :
    xclFreeBO st h = ((), st, []) ∧
    (∀ k, lookupBo (xclFreeBO st h).2.1.mXoclObjMap k = lookupBo st.mXoclObjMap k) := by
  have he : xclFreeBO st h = ((), st, []) := by
    rw [xclFreeBO, hh]
  exact ⟨he, fun k => by rw [he]⟩

/-- Claim C7 witness: freeing the unknown handle 5 in a registry that
holds only handle 0 changes nothing. -/
theorem xclFreeBO_unknown_witness :
    xclFreeBO stRegistry 5 = ((), stRegistry, []) ∧
    (∀ k, lookupBo (xclFreeBO stRegistry 5).2.1.mXoclObjMap k =
      lookupBo stRegistry.mXoclObjMap k) :=
  xclFreeBO_unknown stRegistry 5 (by decide)

/-- Claim C7 counterexample: the claim says freeBO returns an error
indication for an unknown handle, but the source function returns
void: the call on the unknown handle 5 returns the same empty value
as a successful free of the registered handle 0, so no error
indication is returned. -/
theorem xclFreeBO_no_error_indication :
    lookupBo stRegistry.mXoclObjMap 5 = none ∧
    lookupBo stRegistry.mXoclObjMap 0 = some demoBo ∧
    (xclFreeBO stRegistry 5).1 = (xclFreeBO stRegistry 0).1 := by
  exact ⟨by decide, by decide, rfl⟩

/-- Claim C9 amended: while the channel is already open,
launchDeviceProcess spawns no process and creates no new channel, but
it is not a complete no-op: it still creates the next numbered binary
directory and advances the binary-load counter, and changes nothing
else in the session state. -/
theorem launchDeviceProcess_channel_open (st : CpuemShim) (hs : st.sock = true) :
    launchDeviceProcess st =
      ({ st with binaryCounter := st.binaryCounter + 1 },
       { dirCreated := true, spawned := false, channelCreated := false }) := by
  simp [launchDeviceProcess, hs]

/-- Claim C9 witness: with the channel open, the call spawns nothing
and opens nothing, and only the binary counter moves. -/
theorem launchDeviceProcess_channel_open_witness :
    launchDeviceProcess baseState =
      ({ baseState with binaryCounter := baseState.binaryCounter + 1 },
       { dirCreated := true, spawned := false, channelCreated := false }) :=
  launchDeviceProcess_channel_open baseState rfl

/-- Claim C9 counterexample: a call made while the channel is open is
not a no-op: the binary-load counter of the session advances and a
directory creation side effect occurs. -/
theorem launchDeviceProcess_not_noop :
    baseState.sock = true ∧
    (launchDeviceProcess baseState).1 ≠ baseState ∧
    (launchDeviceProcess baseState).1.binaryCounter = baseState.binaryCounter + 1 ∧
    (launchDeviceProcess baseState).2.dirCreated = true := by
  decide

/-- Claim C10: when no channel to the peer is present, xclWrite and
xclRead return the full requested size, forward no message, and leave
the state (the channel included) untouched; the address-space and
size validation is skipped on this path, since the arguments here are
arbitrary and include invalid ones. -/
theorem xclWrite_xclRead_no_channel (st : CpuemShim) (hs : st.sock = false)
    (space : xclAddressSpace) (offset size : Nat) :
    xclWrite st space offset size = (size, false, st) ∧
    xclRead st space offset size = (size, false, st) := by
  constructor <;> simp [xclWrite, xclRead, hs]

/-- Claim C10 witness: with the channel absent, a write and a read in
the wrong address space with a size that fails both validations still
report 3 bytes and forward nothing. -/
theorem xclWrite_xclRead_no_channel_witness :
    xclWrite stNoSock xclAddressSpace.other 7 3 = (3, false, stNoSock) ∧
    xclRead stNoSock xclAddressSpace.other 7 3 = (3, false, stNoSock) :=
  xclWrite_xclRead_no_channel stNoSock rfl xclAddressSpace.other 7 3

/-- Claim C3 counterexample: createBO of size 0 does not succeed: with
the channel open, one bank, and an allocator that would happily return
address 4096, xclAllocBO of size 0 returns the invalid-handle sentinel
mNullBO and leaves the state unchanged, so no buffer object with a
normalized size exists. -/
theorem xclAllocBO_zero_size_fails :
    xclAllocBO (fun _ _ => 4096) true baseState 0 0 = (mNullBO, baseState) := by
  decide

/-- Claim C3 amended: createBO of size 0 fails: xoclCreateBo rejects a
zero size up front, so xclAllocBO returns the invalid-handle sentinel
with the state untouched for every flags value; the normalization of a
zero size to the minimum unit DDR BUFFER ALIGNMENT exists only in the
lower xclAllocDeviceBuffer paths, which xoclCreateBo never enters with
size 0, as the normalized size those paths report back shows. -/
theorem xclAllocBO_zero_size (alloc : Nat → Nat → Nat) (ack : Bool) (st : CpuemShim)
    (flags : Nat) :
    xclAllocBO alloc ack st 0 flags = (mNullBO, st) ∧
    (xclAllocDeviceBuffer2 alloc ack st 0 xclMemoryDomains.deviceRam flags).2.1 =
      DDR_BUFFER_ALIGNMENT := by
  constructor
  · have hm : mNull ≠ 0 := by decide
    simp [xclAllocBO, xoclCreateBo, hm]
  · simp only [xclAllocDeviceBuffer2, ne_eq, not_true_eq_false, if_false, reduceIte]
    repeat' split
    all_goals rfl

/-- Claim C3 amended witness: at a concrete state with one bank, size 0
is rejected with the sentinel and the lower path normalizes to the
minimum unit. -/
theorem xclAllocBO_zero_size_witness :
    xclAllocBO (fun _ _ => 8192) true baseState 0 0 = (mNullBO, baseState) ∧
    (xclAllocDeviceBuffer2 (fun _ _ => 8192) true baseState 0
      xclMemoryDomains.deviceRam 0).2.1 = DDR_BUFFER_ALIGNMENT :=
  xclAllocBO_zero_size (fun _ _ => 8192) true baseState 0

/-- Claim C5: when the Region Allocator fails to assign an address
(every allocation request returns the no-space sentinel), xoclCreateBo
returns the sentinel, adds no record to the registry, and does not
advance the handle counter. -/
theorem xoclCreateBo_alloc_failure (alloc : Nat → Nat → Nat) (ack : Bool)
    (st : CpuemShim) (info : xocl_create_bo)
    (hsize : info.size ≠ 0) (hfail : ∀ b n, alloc b n = mNull) :
    (xoclCreateBo alloc ack st info).1 = mNull ∧
    (xoclCreateBo alloc ack st info).2.1.mXoclObjMap = st.mXoclObjMap ∧
    (xoclCreateBo alloc ack st info).2.1.mBufferCount = st.mBufferCount := by
  simp only [xoclCreateBo, xclAllocDeviceBuffer2, launchTempProcess, launchDeviceProcess,
    hsize, hfail, if_neg hsize]
  by_cases hsock : st.sock <;> simp [hsock]

/-- Claim C5 witness: with a channel open and an allocator that is out
of space, creating a 16 byte object fails with the sentinel and the
empty registry and counter stay as they were. -/
theorem xoclCreateBo_alloc_failure_witness :
    (xoclCreateBo (fun _ _ => mNull) true baseState
      { size := 16, handle := mNullBO, flags := 0 }).1 = mNull ∧
    (xoclCreateBo (fun _ _ => mNull) true baseState
      { size := 16, handle := mNullBO, flags := 0 }).2.1.mXoclObjMap =
      baseState.mXoclObjMap ∧
    (xoclCreateBo (fun _ _ => mNull) true baseState
      { size := 16, handle := mNullBO, flags := 0 }).2.1.mBufferCount =
      baseState.mBufferCount :=
  xoclCreateBo_alloc_failure (fun _ _ => mNull) true baseState
    { size := 16, handle := mNullBO, flags := 0 } (by decide) (fun _ _ => rfl)

/-- Claim C8: a bank selector at or beyond the configured bank count
falls back to bank 0: with a nonzero bank count consistent between the
device info and the allocator list, an acknowledging peer and bank 0
able to serve the request, xoclCreateBo succeeds (no crash), the new
handle is the current counter value, the registered record's base
address is exactly what the allocator of bank 0 returned, and the
counter advances by one. -/
theorem xoclCreateBo_bank_fallback (alloc : Nat → Nat → Nat) (st : CpuemShim)
    (info : xocl_create_bo)
    (hsize : info.size ≠ 0)
    (hcons : st.mDDRBankCount = st.numBanks)
    (hout : st.numBanks ≤ xocl_bo_ddr_idx info.flags)
    (hbanks : 0 < st.numBanks)
    (hA : alloc 0 info.size ≠ mNull) :
    (xoclCreateBo alloc true st info).1 = 0 ∧
    (xoclCreateBo alloc true st info).2.2.handle = st.mBufferCount ∧
    lookupBo (xoclCreateBo alloc true st info).2.1.mXoclObjMap st.mBufferCount =
      some { flags := info.flags, base := alloc 0 info.size, size := info.size,
             filename := "", userptr := none, buf := none, fd := -1 } ∧
    (xoclCreateBo alloc true st info).2.1.mBufferCount = st.mBufferCount + 1 := by
  have h1 : st.mDDRBankCount ≤ xocl_bo_ddr_idx info.flags := by omega
  have h2 : ¬ st.numBanks ≤ 0 := by omega
  simp only [xoclCreateBo, xclAllocDeviceBuffer2, launchTempProcess, launchDeviceProcess,
    if_neg hsize, if_pos h1]
  by_cases hsock : st.sock <;>
    simp [hsock, hsize, h2, hA, lookupBo_insertBo_self]

/-- Claim C8 witness: with one bank and bank selector 1 (out of range),
a 16 byte request succeeds through bank 0, whose allocator assigned
address 65536, and the record is registered under handle 0. -/
theorem xoclCreateBo_bank_fallback_witness :
    (xoclCreateBo (fun b _ => if b = 0 then 65536 else mNull) true baseState
      { size := 16, handle := mNullBO, flags := 1 }).1 = 0 ∧
    (xoclCreateBo (fun b _ => if b = 0 then 65536 else mNull) true baseState
      { size := 16, handle := mNullBO, flags := 1 }).2.2.handle = baseState.mBufferCount ∧
    lookupBo (xoclCreateBo (fun b _ => if b = 0 then 65536 else mNull) true baseState
      { size := 16, handle := mNullBO, flags := 1 }).2.1.mXoclObjMap baseState.mBufferCount =
      some { flags := 1, base := (fun b _ => if b = 0 then 65536 else mNull) 0 16,
             size := 16, filename := "", userptr := none, buf := none, fd := -1 } ∧
    (xoclCreateBo (fun b _ => if b = 0 then 65536 else mNull) true baseState
      { size := 16, handle := mNullBO, flags := 1 }).2.1.mBufferCount =
      baseState.mBufferCount + 1 :=
  xoclCreateBo_bank_fallback (fun b _ => if b = 0 then 65536 else mNull) baseState
    { size := 16, handle := mNullBO, flags := 1 }
    (by decide) rfl (by decide) (by decide) (by decide)

/-- Claim C1: xclPollCompletion evaluated at the failing inputs. The
timeout-handling block of the source is commented out and the
max-completion argument is never read by the control flow, so first,
with three outstanding requests none of which ever completes and a
minimum of 2, the call does not return after any number of scan
passes, for every timeout value, where the claim requires it to
return the completions observed so far once the timeout elapses;
second, with two already-completed requests, a minimum of 1 and a
maximum of 1, the call returns 2 completions, exceeding the maximum;
third, the minimum part of the contract does behave as claimed: with
two completed and three pending requests, a minimum of 2 and a
maximum of 4, the call returns exactly the two completions and keeps
the three pending records. -/
theorem xclPollCompletion_timeout_and_max_ignored :
    (∀ fuel timeout, xclPollCompletion (fun _ => 0) fuel stPoll3 2 4 timeout = none) ∧
    (∀ timeout, xclPollCompletion (fun _ => 1) 2 stPoll2 1 1 timeout =
      some (2, { stPoll2 with mReqList := [] },
        [{ privData := 11, nbytes := 1 }, { privData := 12, nbytes := 1 }])) ∧
    (∀ timeout, xclPollCompletion (fun c => if c ≤ 2 then 1 else 0) 2 stPoll5 2 4 timeout =
      some (2, { stPoll5 with mReqList := [req3, req4, req5] },
        [{ privData := 11, nbytes := 1 }, { privData := 12, nbytes := 1 }])) := by
  refine ⟨fun fuel timeout => ?_, fun timeout => ?_, fun timeout => ?_⟩
  · have hnone := pollLoop_never_complete 2 (by omega) fuel stPoll3.mReqList
    simp [xclPollCompletion, hnone]
  · rfl
  · rfl

/-- Claim C2: the copy loop evaluated at the failing input. A
device-to-host transfer of 3 bytes with message size 2 whose peer
fails every chunk (reports 0 bytes) still forwards both chunks (the
second is sent although the first failed) and returns the full
requested 3 bytes instead of a short count; 2 iterations of fuel are
what the loop consumes here. -/
theorem copyDevice2Host_failure_not_short :
    xclCopyBufferDevice2Host (fun _ _ => 0) stChunk 0 3 0 2 =
      some (3, stChunk,
       [{ addr := 0, len := 2, peerBytes := 0 },
        { addr := 2, len := 1, peerBytes := 0 }]) := by
  decide

/-- Claim C6 amended: a transfer of size S below the 32-bit bound with
a positive configured message size M is forwarded, in both copy
directions, as chunks of length exactly M except a smaller positive
final chunk, at contiguous strictly increasing addresses starting at
the offset target, with the chunk lengths summing to S, and the call
returns S itself, which equals the sum of the per-chunk results when
every chunk succeeds but is not computed from them; for S at or above
the 32-bit bound, or a message size of 0 with S positive, the call
never returns, because the 32-bit processed-bytes accumulator can
never reach the 64-bit size. -/
theorem copyChunking (peer : Nat → Nat → Nat) (st : CpuemShim)
    (a size off fuel : Nat) :
    (0 < st.message_size → size < 2 ^ 32 → size ≤ fuel →
      (∃ st1 tr,
        xclCopyBufferHost2Device peer st a size off fuel = some (size, st1, tr) ∧
        contiguousFrom (a + off) (msgPairs tr) = true ∧
        chunkSizesOk st.message_size (msgPairs tr) = true ∧
        sumLens (msgPairs tr) = size) ∧
      (∃ st1 tr,
        xclCopyBufferDevice2Host peer st a size off fuel = some (size, st1, tr) ∧
        contiguousFrom (a + off) (msgPairs tr) = true ∧
        chunkSizesOk st.message_size (msgPairs tr) = true ∧
        sumLens (msgPairs tr) = size)) ∧
    (2 ^ 32 ≤ size →
      xclCopyBufferHost2Device peer st a size off fuel = none ∧
      xclCopyBufferDevice2Host peer st a size off fuel = none) ∧
    (st.message_size = 0 → 0 < size →
      xclCopyBufferHost2Device peer st a size off fuel = none ∧
      xclCopyBufferDevice2Host peer st a size off fuel = none) := by
  have hms : (if st.sock then st else (launchTempProcess st).1).message_size
      = st.message_size := by
    by_cases hs : st.sock <;> simp [hs, launchTempProcess, launchDeviceProcess]
  refine ⟨fun hm hsz hfuel => ?_, fun hsz => ?_, fun hm0 hsz => ?_⟩
  · have hcl := chunkLoopW_eq_some st.message_size hm fuel 0 size hsz (by omega)
    have hpairs : ∀ b : Nat,
        (List.map (fun c => (c.addr, c.len))
          ((chunkLoop st.message_size 0 size).map
            (fun pc => ChunkMsg.mk (b + pc.1) pc.2 (peer (b + pc.1) pc.2)))) =
        (chunkLoop st.message_size 0 size).map (fun pc => (b + pc.1, pc.2)) := by
      intro b
      rw [List.map_map]
      rfl
    have hcont : ∀ b : Nat,
        contiguousFrom b ((chunkLoop st.message_size 0 size).map
          (fun pc => (b + pc.1, pc.2))) = true := by
      intro b
      have := contiguousFrom_chunkLoop st.message_size b size 0 size (by omega)
      simpa using this
    have hsizes : chunkSizesOk st.message_size (chunkLoop st.message_size 0 size) = true :=
      chunkSizesOk_chunkLoop st.message_size size 0 size (by omega)
    have hsum : sumLens (chunkLoop st.message_size 0 size) = size := by
      have := sumLens_chunkLoop st.message_size size 0 size (by omega) hm
      simpa using this
    constructor
    · refine ⟨if st.sock then st else (launchTempProcess st).1,
        (chunkLoop st.message_size 0 size).map
          (fun pc => ChunkMsg.mk (a + off + pc.1) pc.2 (peer (a + off + pc.1) pc.2)),
        ?_, ?_, ?_, ?_⟩
      · simp only [xclCopyBufferHost2Device, hms, hcl]
        rfl
      · simp only [msgPairs, hpairs, hcont]
      · simp only [msgPairs, hpairs, chunkSizesOk_map_shift, hsizes]
      · simp only [msgPairs, hpairs, sumLens_map_shift, hsum]
    · refine ⟨if st.sock then st else (launchTempProcess st).1,
        (chunkLoop st.message_size 0 size).map
          (fun pc => ChunkMsg.mk (a + off + pc.1) pc.2 (peer (a + off + pc.1) pc.2)),
        ?_, ?_, ?_, ?_⟩
      · simp only [xclCopyBufferDevice2Host, hms, hcl]
        rfl
      · simp only [msgPairs, hpairs, hcont]
      · simp only [msgPairs, hpairs, chunkSizesOk_map_shift, hsizes]
      · simp only [msgPairs, hpairs, sumLens_map_shift, hsum]
  · have hbig := chunkLoopW_big
      (if st.sock then st else (launchTempProcess st).1).message_size fuel 0 size hsz
      (by norm_num)
    constructor
    · simp only [xclCopyBufferHost2Device, hbig]
      rfl
    · simp only [xclCopyBufferDevice2Host, hbig]
      rfl
  · have hz := chunkLoopW_zero_message fuel 0 size hsz (by norm_num)
    have hm0s : (if st.sock then st else (launchTempProcess st).1).message_size = 0 := by
      rw [hms, hm0]
    constructor
    · simp only [xclCopyBufferHost2Device, hm0s, hz]
      rfl
    · simp only [xclCopyBufferDevice2Host, hm0s, hz]
      rfl

/-- Claim C6 amended witness: a 5 byte transfer with message size 2 at
destination 5 and offset 1, given 5 iterations of fuel, splits in both
directions into chunks of 2, 2 and 1 at contiguous addresses from 6
summing to 5, and returns 5; the divergence conjuncts are instantiated
alongside. -/
theorem copyChunking_witness :
    ((0 : Nat) < stChunk.message_size → (5 : Nat) < 2 ^ 32 → (5 : Nat) ≤ 5 →
      (∃ st1 tr,
        xclCopyBufferHost2Device (fun _ _ => 0) stChunk 5 5 1 5 = some (5, st1, tr) ∧
        contiguousFrom (5 + 1) (msgPairs tr) = true ∧
        chunkSizesOk stChunk.message_size (msgPairs tr) = true ∧
        sumLens (msgPairs tr) = 5) ∧
      (∃ st1 tr,
        xclCopyBufferDevice2Host (fun _ _ => 0) stChunk 5 5 1 5 = some (5, st1, tr) ∧
        contiguousFrom (5 + 1) (msgPairs tr) = true ∧
        chunkSizesOk stChunk.message_size (msgPairs tr) = true ∧
        sumLens (msgPairs tr) = 5)) ∧
    (2 ^ 32 ≤ (5 : Nat) →
      xclCopyBufferHost2Device (fun _ _ => 0) stChunk 5 5 1 5 = none ∧
      xclCopyBufferDevice2Host (fun _ _ => 0) stChunk 5 5 1 5 = none) ∧
    (stChunk.message_size = 0 → (0 : Nat) < 5 →
      xclCopyBufferHost2Device (fun _ _ => 0) stChunk 5 5 1 5 = none ∧
      xclCopyBufferDevice2Host (fun _ _ => 0) stChunk 5 5 1 5 = none) :=
  copyChunking (fun _ _ => 0) stChunk 5 5 1 5

/-- Claim C6 counterexample: the returned value does not equal the sum
of the per-chunk results: with message size 2, a host-to-device
transfer of 3 bytes whose peer accepts the first chunk (2 bytes) and
fails the second returns 3, while the per-chunk results total 2. -/
theorem copyH2D_return_not_result_sum :
    xclCopyBufferHost2Device demoFailSecond stChunk 0 3 0 2 =
      some (3, stChunk,
       [{ addr := 0, len := 2, peerBytes := 2 },
        { addr := 2, len := 1, peerBytes := 0 }]) ∧
    sumPeerBytes
      [{ addr := 0, len := 2, peerBytes := 2 },
       { addr := 2, len := 1, peerBytes := 0 }] = 2 ∧
    (3 : Nat) ≠ 2 := by
  refine ⟨by decide, by decide, by decide⟩
